import Mathlib

/-!
Verification of the scatter-gather aggregation and ranking engine of
`src/cli/server_list_command.go` (`SrvLsCmd.list` and its helpers).

The Go code is shallowly embedded as follows.

* Machine integers: Go `int`, `int64` are modelled as `Int` with explicit
  two's-complement wrapping (`wrap64`) applied at every addition that the Go
  code performs at 64-bit width; the `uint32` accumulator `subs` is modelled as
  `Nat` with `% 2 ^ 32` applied at every addition.  Go `float64` (`Stats.CPU`)
  is modelled as `ℚ`, which is faithful for the ordering comparisons the code
  performs on it (NaN behaviour aside; no claim depends on it).
* `server.ServerStatsMsg` (an external wire type) is modelled by `SrvResult`
  with exactly the fields the code reads.  `Stats.Routes` is only ever used
  through `len`, so it is modelled by its length.
* The shared mutable state of the reply callback (lines 69–122) is `AggState`;
  the callback body (lines 85–122) is the pure step `onRecord` / `processReply`.
  The Go `map[string]*srvListCluster` is modelled as an association list in
  first-insertion order; the code only uses keyed access (`alLookup`) and `len`.
* `sort.Slice` (line 143) is Go standard-library code, external to this
  repository.  It is modelled twice, at its two relevant levels:
  `rank` realizes its documented contract (the output is ordered with respect
  to the supplied comparator and is a permutation of the input) with a
  structurally recursive sort, while `insertionSortGo` transcribes the actual
  stdlib algorithm executed for slices of length ≤ 12 (both the pre-1.19
  quicksort and the 1.19+ pdqsort run plain insertion sort below 13 elements),
  which decides the stability question.  `sort.Slice` documents *no* stability
  guarantee, so the contract model must not be used for stability claims.
* `printJSON`, table rendering, `humanize.*` and `compactStrings` are external
  renderers/collaborators: cells produced for the table keep the exact value
  the code hands to the renderer, tagged by the rendering function used
  (`Cell`), and the name/host compactor is a function parameter.
-/

/-- Two's-complement wrap of an integer to signed 64-bit range, the semantics
of every Go `int`/`int64` addition in the embedded code. -/
def wrap64 (z : Int) : Int :=
  (z + 9223372036854775808) % 18446744073709551616 - 9223372036854775808

/-- Fields of `server.ServerInfo` the code reads. `time` is `Server.Time` as
Unix nanoseconds. -/
structure ServerInfo where
  name : String
  host : String
  version : String
  cluster : String
  domain : String
  jetStream : Bool
  time : Int
deriving DecidableEq, Inhabited, Repr

/-- One entry of `Stats.Gateways`; the code reads only `NumInbound`. -/
structure GatewayStat where
  numInbound : Int
deriving DecidableEq, Inhabited, Repr

/-- Fields of `server.ServerStats` the code reads.  `numSubs` is the `uint32`
`NumSubs`; `routes` stands for `len(Stats.Routes)` (the list is only ever
measured); `start` is `Stats.Start` as Unix nanoseconds; `cpu` models the
`float64` CPU percentage. -/
structure ServerStats where
  connections : Int
  numSubs : Nat
  routes : Nat
  gateways : List GatewayStat
  mem : Int
  cpu : ℚ
  cores : Int
  slowConsumers : Int
  start : Int
deriving DecidableEq, Inhabited, Repr

/-- The local `result` struct of `SrvLsCmd.list`: a decoded `ServerStatsMsg`
plus the round-trip time measured by the collector (nanoseconds). -/
structure SrvResult where
  server : ServerInfo
  stats : ServerStats
  rtt : Int
deriving DecidableEq, Inhabited, Repr

/-- The `SrvLsCmd` flag set. -/
structure SrvLsCmd where
  expect : Nat
  json : Bool
  sort : String
  reverse : Bool
  compact : Bool
deriving DecidableEq, Inhabited, Repr

/-- The `srvListCluster` rollup struct, fields in source order. -/
structure SrvListCluster where
  name : String
  nodes : List String
  gwOut : Int
  gwIn : Int
  conns : Int
deriving DecidableEq, Inhabited, Repr

/-- The shared accumulator state of the reply callback (source lines 69–82):
the growing result slice, the cluster map (as an association list in
first-insertion order), and the global totals. -/
structure AggState where
  results : List SrvResult
  clusters : List (String × SrvListCluster)
  servers : Int
  connections : Int
  memory : Int
  slow : Int
  subs : Nat
  js : Int
deriving DecidableEq, Inhabited, Repr

/-- The zero-initialized accumulator state at the start of a run. -/
def initState : AggState := ⟨[], [], 0, 0, 0, 0, 0, 0⟩

/-- Keyed lookup in the cluster map, modelling `clusters[cluster]` reads. -/
def alLookup : List (String × SrvListCluster) → String → Option SrvListCluster
  | [], _ => none
  | (k', v) :: t, k => if k' = k then some v else alLookup t k

/-- In-place update of the entry with the given key, modelling mutation
through the `*srvListCluster` pointer held in the map. -/
def alUpdate (f : SrvListCluster → SrvListCluster) :
    List (String × SrvListCluster) → String → List (String × SrvListCluster)
  | [], _ => []
  | (k', v) :: t, k =>
    if k' = k then (k', f v) :: t else (k', v) :: alUpdate f t k

/-- The per-cluster mutations of lines 111–116: add the record's connections,
append its server name to the node list, add its gateway count, and fold its
gateways' inbound counts into `gwIn` (each Go addition wraps at 64 bits). -/
def clusterUpd (r : SrvResult) (cl : SrvListCluster) : SrvListCluster :=
  { cl with
    conns := wrap64 (cl.conns + r.stats.connections)
    nodes := cl.nodes ++ [r.server.name]
    gwOut := wrap64 (cl.gwOut + (r.stats.gateways.length : Int))
    gwIn := r.stats.gateways.foldl (fun a g => wrap64 (a + g.numInbound)) cl.gwIn }

/-- Lines 104–117: when the record carries a non-empty cluster name, lazily
create the rollup (`&srvListCluster{cluster, []string{}, 0, 0, 0}`) and apply
the per-cluster mutations to it. -/
def updateCluster (m : List (String × SrvListCluster)) (r : SrvResult) :
    List (String × SrvListCluster) :=
  let k := r.server.cluster
  let m' := match alLookup m k with
    | none => m ++ [(k, ⟨k, [], 0, 0, 0⟩)]
    | some _ => m
  alUpdate (clusterUpd r) m' k

/-- The aggregation step of the reply callback (lines 92–122) for one decoded
record: bump the global totals, update the cluster rollup iff the cluster name
is non-empty, and append the record to the result slice. -/
def onRecord (s : AggState) (r : SrvResult) : AggState :=
  { results := s.results ++ [r]
    clusters := if r.server.cluster = "" then s.clusters else updateCluster s.clusters r
    servers := wrap64 (s.servers + 1)
    connections := wrap64 (s.connections + r.stats.connections)
    memory := wrap64 (s.memory + r.stats.mem)
    slow := wrap64 (s.slow + r.stats.slowConsumers)
    subs := (s.subs + r.stats.numSubs) % 2 ^ 32
    js := if r.server.jetStream then wrap64 (s.js + 1) else s.js }

/-- Aggregating a whole arrival sequence of decoded records. -/
def aggregate (l : List SrvResult) : AggState := l.foldl onRecord initState

/-- Outcome of running the reply callback over a stream of replies: either the
process has fatally exited (`os.Exit(1)` at line 89 after a decode failure) or
collection is still running with the accumulated state. -/
inductive ReplyOutcome where
  | fatalExit : ReplyOutcome
  | running : AggState → ReplyOutcome
deriving DecidableEq, Inhabited, Repr

/-- One invocation of the reply callback (lines 84–123).  `none` models a
payload `json.Unmarshal` failed to decode: the callback logs and calls
`os.Exit(1)`, so once fatal, the run stays fatal. -/
def processReply (o : ReplyOutcome) (d : Option SrvResult) : ReplyOutcome :=
  match o, d with
  | .fatalExit, _ => .fatalExit
  | .running _, none => .fatalExit
  | .running s, some r => .running (onRecord s r)

/-- Folding the callback over every reply received in the collection window. -/
def runReplies (replies : List (Option SrvResult)) : ReplyOutcome :=
  replies.foldl processReply (.running initState)

/-- The `rev` closure of lines 136–141: with `reverse` unset it negates the
comparison (the default view is the reversed/descending one); with `reverse`
set it passes the comparison through. -/
def revFn (c : SrvLsCmd) (v : Bool) : Bool := if !c.reverse then !v else v

/-- The comparator passed to `sort.Slice` (lines 143–169), switch case by
switch case.  `name` compares server names lexically without `rev`; the metric
keys pass `<` on their metric through `rev`; `uptime` and the default (`rtt`)
branch pass a *flipped* (`>`) comparison through `rev`.  String comparison on
UTF-8 bytes (Go `<`) agrees with Lean's code-point order because UTF-8 is
order-preserving. -/
def lessFn (c : SrvLsCmd) (a b : SrvResult) : Bool :=
  if c.sort = "name" then decide (a.server.name < b.server.name)
  else if c.sort = "conns" ∨ c.sort = "conn" then
    revFn c (decide (a.stats.connections < b.stats.connections))
  else if c.sort = "subs" ∨ c.sort = "sub" then
    revFn c (decide (a.stats.numSubs < b.stats.numSubs))
  else if c.sort = "routes" ∨ c.sort = "route" then
    revFn c (decide (a.stats.routes < b.stats.routes))
  else if c.sort = "gws" ∨ c.sort = "gw" then
    revFn c (decide (a.stats.gateways.length < b.stats.gateways.length))
  else if c.sort = "mem" then revFn c (decide (a.stats.mem < b.stats.mem))
  else if c.sort = "cpu" then revFn c (decide (a.stats.cpu < b.stats.cpu))
  else if c.sort = "slow" then
    revFn c (decide (a.stats.slowConsumers < b.stats.slowConsumers))
  else if c.sort = "uptime" then revFn c (decide (a.stats.start > b.stats.start))
  else revFn c (decide (a.rtt > b.rtt))

/-- The (total, transitive) order the comparator sorts by: `a` may precede `b`
when `less a b` holds or `less b a` fails.  A `sort.Slice` output is exactly an
arrangement pairwise ordered by this relation. -/
def sortedLe (c : SrvLsCmd) (a b : SrvResult) : Prop :=
  (lessFn c a b || !lessFn c b a) = true

instance (c : SrvLsCmd) : DecidableRel (sortedLe c) :=
  fun _ _ => instDecidableEqBool _ _

/-- Contract-level model of `sort.Slice(results, less)` (line 143): an output
sequence pairwise ordered by `sortedLe`, produced here by a structurally
recursive sort.  The contract does not cover tie order (`sort.Slice` documents
"The sort is not guaranteed to be stable"); tie behaviour of the actual stdlib
algorithm is modelled separately by `insertionSortGo`. -/
def rank (c : SrvLsCmd) (l : List SrvResult) : List SrvResult :=
  List.insertionSort (sortedLe c) l

/-- Swap of two positions of the result slice, reading both before writing. -/
def swapL (l : List SrvResult) (i j : Nat) : List SrvResult :=
  (l.set i (l.getD j default)).set j (l.getD i default)

/-- Inner loop of the Go stdlib `insertionSort(data, a, b)` with `a = 0`:
`for j := i; j > a && data.Less(j, j-1); j-- { data.Swap(j, j-1) }`. -/
def insInner (less : SrvResult → SrvResult → Bool) (l : List SrvResult) :
    Nat → List SrvResult
  | 0 => l
  | j + 1 =>
    if less (l.getD (j + 1) default) (l.getD j default) then
      insInner less (swapL l (j + 1) j) j
    else l

/-- Outer loop of the Go stdlib `insertionSort`: `for i := a+1; i < b; i++`,
with the remaining iteration count made explicit. -/
def insAux (less : SrvResult → SrvResult → Bool) :
    List SrvResult → Nat → Nat → List SrvResult
  | l, _, 0 => l
  | l, i, k + 1 => insAux less (insInner less l i) (i + 1) k

/-- The Go standard library `insertionSort(data, 0, len)` — the `sort.Slice`
code path actually executed for slices of length ≤ 12 (`pdqsort`'s
`maxInsertion` branch; the pre-1.19 quicksort had the same cutoff). -/
def insertionSortGo (less : SrvResult → SrvResult → Bool) (l : List SrvResult) :
    List SrvResult :=
  insAux less l 1 (l.length - 1)

/-- Implementation-level model of the ranking the code performs on result sets
of at most 12 records: `sort.Slice` with the line-143 comparator runs the
stdlib insertion sort there.  This model decides tie (stability) behaviour,
which the `sort.Slice` contract leaves open. -/
def rankGoSmall (c : SrvLsCmd) (l : List SrvResult) : List SrvResult :=
  insertionSortGo (lessFn c) l

/-- One table cell as handed to the renderer: either a literal string or a
value tagged with the (external) formatting routine the code applies to it
(`humanize.Comma`, `humanize.IBytes`, `%.0f` CPU formatting, humanized
duration, RTT with millisecond rounding). -/
inductive Cell where
  | str : String → Cell
  | int : Int → Cell
  | comma : Int → Cell
  | ibytes : Int → Cell
  | cpuFmt : ℚ → Cell
  | dur : Int → Cell
  | rttMs : Int → Cell
deriving DecidableEq, Repr

/-- The JetStream indicator cell of lines 188–195: the domain if JetStream is
enabled with a non-empty domain, else `"yes"`/`"no"`. -/
def jsCellStr (r : SrvResult) : String :=
  if r.server.jetStream then
    (if r.server.domain ≠ "" then r.server.domain else "yes")
  else "no"

/-- One per-server row (lines 197–212), for a record paired with its
(compacted) display name and host. -/
def rowFor (p : SrvResult × String × String) : List Cell :=
  [.str p.2.1, .str p.1.server.cluster, .str p.2.2, .str p.1.server.version,
   .str (jsCellStr p.1), .comma p.1.stats.connections,
   .comma (p.1.stats.numSubs : Int), .int (p.1.stats.routes : Int),
   .int (p.1.stats.gateways.length : Int), .ibytes p.1.stats.mem,
   .cpuFmt p.1.stats.cpu, .int p.1.stats.cores, .int p.1.stats.slowConsumers,
   .dur (p.1.server.time - p.1.stats.start), .rttMs p.1.rtt]

/-- The totals row of lines 216–230, cell by cell under the 15 headers
Name, Cluster, Host, Version, JS, Conns, Subs, Routes, GWs, Mem, CPU %, Cores,
Slow, Uptime, RTT: `AddRow("", len(clusters), servers, "", js,
Comma(connections), Comma(subs), "", "", IBytes(memory), "", "", Comma(slow),
"", "")`. -/
def totalsRow (s : AggState) : List Cell :=
  [.str "", .int (s.clusters.length : Int), .int s.servers, .str "",
   .int s.js, .comma s.connections, .comma (s.subs : Int), .str "", .str "",
   .ibytes s.memory, .str "", .str "", .comma s.slow, .str "", .str ""]

/-- The body of the per-server table: one row per ranked record (zipped with
its compacted display name and host) followed by the totals row. -/
def serverTableRows (ranked : List SrvResult) (cNames cHosts : List String)
    (s : AggState) : List (List Cell) :=
  (ranked.zip (cNames.zip cHosts)).map rowFor ++ [totalsRow s]

/-- What `SrvLsCmd.list` emits after collection: the JSON document of line 130
or the rendered per-server table.  (The cluster overview of `showClusters` is
rendered afterwards from the same rollups; no claim touches its contents.) -/
inductive Output where
  | jsonDoc : List SrvResult → Output
  | tables : List (List Cell) → Output
deriving DecidableEq, Repr

/-- The error string of line 126. -/
def noResultsMsg : String :=
  "no results received, ensure the account used has system privileges and appropriate permissions"

/-- The post-collection logic of lines 125–232: fail with the no-results error
when nothing was collected; in JSON mode emit the collected results as-is
(line 130 runs *before* the sort); otherwise sort, compact the display strings
(`compactStrings` is outside this file's source and is passed in as the
external collaborator `compactFn`, applied only when the `compact` flag is
set), and build the table. -/
def listRender (compactFn : List String → List String) (c : SrvLsCmd)
    (s : AggState) : Except String Output :=
  if s.results.length = 0 then .error noResultsMsg
  else if c.json then .ok (.jsonDoc s.results)
  else
    let ranked := rank c s.results
    let names := ranked.map (fun r => r.server.name)
    let hosts := ranked.map (fun r => r.server.host)
    let cNames := if c.compact then compactFn names else names
    let cHosts := if c.compact then compactFn hosts else hosts
    .ok (.tables (serverTableRows ranked cNames cHosts s))

/-- Order-insensitive view of one cluster rollup: its sums and its node
multiset (the node *list* additionally records arrival order). -/
@[ext]
structure ClusterObs where
  conns : Int
  gwOut : Int
  gwIn : Int
  nodes : Multiset String
deriving DecidableEq

/-- Order-insensitive view of the aggregator state: all global totals and the
keyed per-cluster sums/node-multisets. -/
@[ext]
structure Obs where
  servers : Int
  connections : Int
  memory : Int
  slow : Int
  subs : Nat
  js : Int
  clusterAt : String → Option ClusterObs

/-- Projection from a cluster rollup to its order-insensitive view. -/
def cObs (cl : SrvListCluster) : ClusterObs :=
  ⟨cl.conns, cl.gwOut, cl.gwIn, (cl.nodes : Multiset String)⟩

/-- Projection from the aggregator state to its order-insensitive view. -/
def obs (s : AggState) : Obs :=
  ⟨s.servers, s.connections, s.memory, s.slow, s.subs, s.js,
   fun k => (alLookup s.clusters k).map cObs⟩

/-- The effect of `clusterUpd` on the order-insensitive cluster view. -/
def cluObsUpd (r : SrvResult) (co : ClusterObs) : ClusterObs :=
  ⟨wrap64 (co.conns + r.stats.connections),
   wrap64 (co.gwOut + (r.stats.gateways.length : Int)),
   r.stats.gateways.foldl (fun a g => wrap64 (a + g.numInbound)) co.gwIn,
   co.nodes + {r.server.name}⟩

/-- The effect of `onRecord` on the order-insensitive view. -/
def obsStep (o : Obs) (r : SrvResult) : Obs :=
  { servers := wrap64 (o.servers + 1)
    connections := wrap64 (o.connections + r.stats.connections)
    memory := wrap64 (o.memory + r.stats.mem)
    slow := wrap64 (o.slow + r.stats.slowConsumers)
    subs := (o.subs + r.stats.numSubs) % 2 ^ 32
    js := if r.server.jetStream then wrap64 (o.js + 1) else o.js
    clusterAt :=
      if r.server.cluster = "" then o.clusterAt
      else fun k =>
        if k = r.server.cluster then
          some (cluObsUpd r ((o.clusterAt r.server.cluster).getD ⟨0, 0, 0, 0⟩))
        else o.clusterAt k }

/-- Number of node names recorded for a given cluster key (0 when absent). -/
def nodeCountAt (s : AggState) (k : String) : Nat :=
  (alLookup s.clusters k).elim 0 (fun cl => cl.nodes.length)

/-- The sort keys whose comparator is `rev` of `<` on a server metric. -/
def metricKeys : List String :=
  ["conns", "conn", "subs", "sub", "routes", "route", "gws", "gw", "mem", "cpu", "slow"]

/-- All keys the comparator switch names explicitly; any other key (such as
`"rtt"`) takes the default round-trip-time branch. -/
def switchKeys : List String :=
  ["name", "conns", "conn", "subs", "sub", "routes", "route", "gws", "gw",
   "mem", "cpu", "slow", "uptime"]

/-- Ascending comparison on the metric a given sort key selects. -/
def metricLE (key : String) (a b : SrvResult) : Prop :=
  if key = "conns" ∨ key = "conn" then a.stats.connections ≤ b.stats.connections
  else if key = "subs" ∨ key = "sub" then a.stats.numSubs ≤ b.stats.numSubs
  else if key = "routes" ∨ key = "route" then a.stats.routes ≤ b.stats.routes
  else if key = "gws" ∨ key = "gw" then
    a.stats.gateways.length ≤ b.stats.gateways.length
  else if key = "mem" then a.stats.mem ≤ b.stats.mem
  else if key = "cpu" then a.stats.cpu ≤ b.stats.cpu
  else if key = "slow" then a.stats.slowConsumers ≤ b.stats.slowConsumers
  else True

/-- Sample record builder for concrete witnesses: a server with the given
name, cluster, connection count, memory, and round-trip time. -/
def mkRec (nm cl : String) (conns mem rtt : Int) : SrvResult :=
  { server := { name := nm, host := nm, version := "2.0", cluster := cl,
                domain := "", jetStream := false, time := 0 }
    stats := { connections := conns, numSubs := 0, routes := 0, gateways := [],
               mem := mem, cpu := 0, cores := 1, slowConsumers := 0, start := 0 }
    rtt := rtt }

/-- Sample flag-set builder for concrete witnesses. -/
def mkCmd (srt : String) (rv js : Bool) : SrvLsCmd :=
  ⟨0, js, srt, rv, true⟩

/-- Two records that tie on every metric (7 connections each) but differ in
name: a stability probe. -/
def tieA : SrvResult := mkRec "a1" "" 7 0 0

/-- Second record of the stability probe; same connection count as `tieA`. -/
def tieB : SrvResult := mkRec "a2" "" 7 0 0

/-- A record with a 1000ns round-trip time. -/
def rttFast : SrvResult := mkRec "f" "" 0 0 1000

/-- A record with a 2000ns round-trip time. -/
def rttSlow : SrvResult := mkRec "s" "" 0 0 2000

/-- A record with 100 bytes of memory in use. -/
def memA : SrvResult := mkRec "m1" "" 0 100 0

/-- A record with 300 bytes of memory in use. -/
def memB : SrvResult := mkRec "m3" "" 0 300 0

/-- First record of the spec's rollup scenario: cluster A, 5 connections. -/
def recA1 : SrvResult := mkRec "n1" "A" 5 0 0

/-- Second record of the spec's rollup scenario: cluster B, 20 connections. -/
def recB2 : SrvResult := mkRec "n2" "B" 20 0 0

/-- Third record of the spec's rollup scenario: cluster A, 5 connections. -/
def recA3 : SrvResult := mkRec "n3" "A" 5 0 0

/-- A cluster-A record named "x", used for arrival-order probes. -/
def nodeX : SrvResult := mkRec "x" "A" 1 0 0

/-- A cluster-A record named "y", used for arrival-order probes. -/
def nodeY : SrvResult := mkRec "y" "A" 2 0 0

set_option maxHeartbeats 2000000

lemma wrap64_add_left (a b : Int) : wrap64 (wrap64 a + b) = wrap64 (a + b) := by
  unfold wrap64
  omega

lemma wrap64_eq_self {z : Int} (h1 : -9223372036854775808 ≤ z)
    (h2 : z < 9223372036854775808) : wrap64 z = z := by
  unfold wrap64
  omega

lemma alLookup_append (m1 m2 : List (String × SrvListCluster)) (k : String) :
    alLookup (m1 ++ m2) k = (alLookup m1 k).or (alLookup m2 k) := by
  induction m1 with
  | nil => simp [alLookup]
  | cons p t ih =>
    obtain ⟨k', v⟩ := p
    by_cases h : k' = k <;> simp [alLookup, h, ih]

lemma alLookup_alUpdate (f : SrvListCluster → SrvListCluster)
    (m : List (String × SrvListCluster)) (k k' : String) :
    alLookup (alUpdate f m k) k' =
      if k' = k then (alLookup m k').map f else alLookup m k' := by
  induction m with
  | nil => by_cases h : k' = k <;> simp [alUpdate, alLookup, h]
  | cons p t ih =>
    obtain ⟨k0, v⟩ := p
    by_cases h0 : k0 = k <;> by_cases h1 : k0 = k' <;> by_cases h2 : k' = k <;>
      simp_all [alUpdate, alLookup]

lemma alLookup_updateCluster_self (m : List (String × SrvListCluster)) (r : SrvResult) :
    alLookup (updateCluster m r) r.server.cluster =
      some (clusterUpd r
        ((alLookup m r.server.cluster).getD ⟨r.server.cluster, [], 0, 0, 0⟩)) := by
  unfold updateCluster
  cases h : alLookup m r.server.cluster with
  | none => simp [alLookup_alUpdate, alLookup_append, h, alLookup]
  | some cl => simp [alLookup_alUpdate, h]

lemma alLookup_updateCluster_other (m : List (String × SrvListCluster)) (r : SrvResult)
    (k : String) (hk : k ≠ r.server.cluster) :
    alLookup (updateCluster m r) k = alLookup m k := by
  unfold updateCluster
  cases h : alLookup m r.server.cluster with
  | none =>
    simp only [alLookup_alUpdate, alLookup_append, h, if_neg hk, alLookup]
    rw [if_neg (fun hh => hk hh.symm)]
    simp
  | some cl => simp [alLookup_alUpdate, h, hk]

lemma sortedLe_total (c : SrvLsCmd) (a b : SrvResult) :
    sortedLe c a b ∨ sortedLe c b a := by
  cases h1 : lessFn c a b <;> simp [sortedLe, h1]

lemma sortedLe_trans (c : SrvLsCmd) (a b d : SrvResult)
    (h1 : sortedLe c a b) (h2 : sortedLe c b d) : sortedLe c a d := by
  unfold sortedLe lessFn revFn at h1 h2 ⊢
  cases hc : c.reverse <;>
    simp only [hc, Bool.not_false, Bool.not_true, Bool.false_eq_true, Bool.true_eq_false,
      eq_self_iff_true, if_true, if_false] at h1 h2 ⊢ <;>
    split_ifs at h1 h2 ⊢ <;>
    simp only [Bool.or_eq_true, Bool.not_eq_true', Bool.not_not, decide_eq_true_eq,
      decide_eq_false_iff_not, gt_iff_lt, not_lt] at h1 h2 ⊢ <;>
    first
      | exact Or.inl (le_trans (h2.elim id le_of_lt) (h1.elim id le_of_lt))
      | exact Or.inr (le_trans (h1.elim le_of_lt id) (h2.elim le_of_lt id))
      | exact Or.inl (le_trans (h1.elim id le_of_lt) (h2.elim id le_of_lt))
      | exact Or.inr (le_trans (h2.elim le_of_lt id) (h1.elim le_of_lt id))

lemma rank_pairwise (c : SrvLsCmd) (P : SrvResult → SrvResult → Prop)
    (h : ∀ a b, sortedLe c a b → P a b) (l : List SrvResult) :
    (rank c l).Pairwise P := by
  haveI : IsTotal SrvResult (sortedLe c) := ⟨sortedLe_total c⟩
  haveI : IsTrans SrvResult (sortedLe c) := ⟨sortedLe_trans c⟩
  exact (List.sorted_insertionSort (sortedLe c) l).imp (fun hab => h _ _ hab)

/-- Claim C1, counterexample: two records that tie on the `conns` metric (7
connections each) are emitted in *reversed* arrival order by the ranking the
code performs (sort.Slice's insertion-sort path with the line-143 comparator,
`reverse` unset), so the ranking is not stable for ties. -/
theorem claim_C1_counterexample :
    tieA.stats.connections = tieB.stats.connections ∧ tieA ≠ tieB ∧
    rankGoSmall (mkCmd "conns" false false) [tieA, tieB] = [tieB, tieA] :=
  ⟨by decide, by decide, by decide⟩

/-- Claim C1, amended: the ranking is not stable for ties — whenever the
comparator accepts the later record before the earlier one (which happens for
every tie under a metric sort key with `reverse` unset, the comparator then
being non-strict), a two-record set is emitted with the tied pair swapped. -/
theorem claim_C1_amended (c : SrvLsCmd) (r1 r2 : SrvResult)
    (h : lessFn c r2 r1 = true) :
    rankGoSmall c [r1, r2] = [r2, r1] := by
  simp [rankGoSmall, insertionSortGo, insAux, insInner, swapL, h]

/-- Claim C1, witness: the amended statement applied to the concrete tied
pair. -/
theorem claim_C1_witness :
    rankGoSmall (mkCmd "conns" false false) [tieA, tieB] = [tieB, tieA] :=
  claim_C1_amended (mkCmd "conns" false false) tieA tieB (by decide)

/-- Claim C2: for every record set and every metric sort key
(conns/conn, subs/sub, routes/route, gws/gw, mem, cpu, slow), the ranked
output is ordered descending on that metric when `reverse` is unset and
ascending when it is set, while sort key `name` yields ascending lexical
order on server names regardless of the reverse flag. -/
theorem claim_C2 (c : SrvLsCmd) (l : List SrvResult) :
    (c.sort ∈ metricKeys →
      (c.reverse = false → (rank c l).Pairwise (fun a b => metricLE c.sort b a)) ∧
      (c.reverse = true → (rank c l).Pairwise (fun a b => metricLE c.sort a b))) ∧
    (c.sort = "name" →
      (rank c l).Pairwise (fun a b => a.server.name ≤ b.server.name)) := by
  refine ⟨fun hmem => ⟨fun hr => ?_, fun hr => ?_⟩, fun hs => ?_⟩
  · apply rank_pairwise
    intro a b hab
    simp only [metricKeys, List.mem_cons, List.not_mem_nil, or_false] at hmem
    unfold sortedLe lessFn revFn at hab
    unfold metricLE
    rcases hmem with hs|hs|hs|hs|hs|hs|hs|hs|hs|hs|hs <;>
      simp only [hs, hr, Bool.not_false, Bool.false_eq_true, Bool.true_eq_false,
        eq_self_iff_true, if_true, if_false, String.reduceEq, or_self, or_false, false_or,
        true_or, or_true] at hab ⊢ <;>
      simp only [Bool.or_eq_true, Bool.not_eq_true', Bool.not_not, decide_eq_true_eq,
        decide_eq_false_iff_not, not_lt] at hab <;>
      exact hab.elim id le_of_lt
  · apply rank_pairwise
    intro a b hab
    simp only [metricKeys, List.mem_cons, List.not_mem_nil, or_false] at hmem
    unfold sortedLe lessFn revFn at hab
    unfold metricLE
    rcases hmem with hs|hs|hs|hs|hs|hs|hs|hs|hs|hs|hs <;>
      simp only [hs, hr, Bool.not_true, Bool.false_eq_true, Bool.true_eq_false,
        eq_self_iff_true, if_true, if_false, String.reduceEq, or_self, or_false, false_or,
        true_or, or_true] at hab ⊢ <;>
      simp only [Bool.or_eq_true, Bool.not_eq_true', Bool.not_not, decide_eq_true_eq,
        decide_eq_false_iff_not, not_lt] at hab <;>
      exact hab.elim le_of_lt id
  · apply rank_pairwise
    intro a b hab
    unfold sortedLe lessFn revFn at hab
    simp only [hs, eq_self_iff_true, if_true] at hab
    simp only [Bool.or_eq_true, Bool.not_eq_true', decide_eq_true_eq,
      decide_eq_false_iff_not, not_lt] at hab
    exact hab.elim le_of_lt id

/-- Claim C2, witness: ranking two records on `mem` with `reverse` unset
yields descending memory order. -/
theorem claim_C2_witness :
    (rank (mkCmd "mem" false false) [memA, memB]).Pairwise
      (fun a b => metricLE (mkCmd "mem" false false).sort b a) :=
  ((claim_C2 (mkCmd "mem" false false) [memA, memB]).1 (by decide)).1 rfl

/-- Claim C3, counterexample: under the default sort key (`"rtt"`) with
`reverse` unset, the record with the *lower* round-trip time comes first —
the claim asserts higher round-trip times come first. -/
theorem claim_C3_counterexample :
    rttFast.rtt < rttSlow.rtt ∧ rttFast ≠ rttSlow ∧
    rank (mkCmd "rtt" false false) [rttSlow, rttFast] = [rttFast, rttSlow] :=
  ⟨by decide, by decide, by decide⟩

/-- Claim C3, amended: for any key the comparator switch does not name (such
as `"rtt"`), the comparator basis is the round-trip time, but in the direction
opposite to the metric keys: `reverse` unset orders *ascending* on round-trip
time (lower first) and `reverse` set orders descending (higher first), because
the default branch feeds a flipped (`>`) comparison through `rev`. -/
theorem claim_C3_amended (c : SrvLsCmd) (l : List SrvResult)
    (hns : c.sort ∉ switchKeys) :
    (c.reverse = false → (rank c l).Pairwise (fun a b => a.rtt ≤ b.rtt)) ∧
    (c.reverse = true → (rank c l).Pairwise (fun a b => b.rtt ≤ a.rtt)) := by
  simp only [switchKeys, List.mem_cons, List.not_mem_nil, or_false, not_or] at hns
  obtain ⟨e1, e2, e3, e4, e5, e6, e7, e8, e9, e10, e11, e12, e13⟩ := hns
  constructor <;> intro hr <;> apply rank_pairwise <;> intro a b hab <;>
    unfold sortedLe lessFn revFn at hab <;>
    simp only [e1, e2, e3, e4, e5, e6, e7, e8, e9, e10, e11, e12, e13, hr,
      Bool.not_false, Bool.not_true, Bool.false_eq_true, Bool.true_eq_false,
      eq_self_iff_true, if_true, if_false, or_self] at hab <;>
    simp only [Bool.or_eq_true, Bool.not_eq_true', Bool.not_not, decide_eq_true_eq,
      decide_eq_false_iff_not, gt_iff_lt, not_lt] at hab
  · exact hab.elim id le_of_lt
  · exact hab.elim le_of_lt id

/-- Claim C3, witness: the amended statement applied to key `"rtt"` with
`reverse` unset on a concrete pair. -/
theorem claim_C3_witness :
    (rank (mkCmd "rtt" false false) [rttSlow, rttFast]).Pairwise
      (fun a b => a.rtt ≤ b.rtt) :=
  (claim_C3_amended (mkCmd "rtt" false false) [rttSlow, rttFast] (by decide)).1 rfl

/-- Claim C4: one application of the aggregation step to any prior state
increments `servers` by exactly 1 and adds the record's connections to the
global connection total (whenever those 64-bit additions do not wrap), and —
iff the record's cluster name is non-empty — grows the node-name list of
exactly that one cluster rollup by exactly one entry, leaving every other
cluster untouched; with the spec's scenario (connections {5, 20, 5}, clusters
{"A", "B", "A"}) yielding connection total 30, server count 3, cluster A with
10 connections and 2 nodes, and cluster B with 20 connections and 1 node. -/
theorem claim_C4 :
    (∀ (s : AggState) (r : SrvResult),
        -9223372036854775808 ≤ s.servers + 1 → s.servers + 1 < 9223372036854775808 →
        -9223372036854775808 ≤ s.connections + r.stats.connections →
        s.connections + r.stats.connections < 9223372036854775808 →
        (onRecord s r).servers = s.servers + 1 ∧
        (onRecord s r).connections = s.connections + r.stats.connections ∧
        (r.server.cluster ≠ "" →
          nodeCountAt (onRecord s r) r.server.cluster = nodeCountAt s r.server.cluster + 1 ∧
          ∀ k, k ≠ r.server.cluster →
            alLookup (onRecord s r).clusters k = alLookup s.clusters k) ∧
        (r.server.cluster = "" → (onRecord s r).clusters = s.clusters)) ∧
    ((aggregate [recA1, recB2, recA3]).connections = 30 ∧
     (aggregate [recA1, recB2, recA3]).servers = 3 ∧
     (alLookup (aggregate [recA1, recB2, recA3]).clusters "A").map (fun cl => cl.conns) =
       some 10 ∧
     nodeCountAt (aggregate [recA1, recB2, recA3]) "A" = 2 ∧
     (alLookup (aggregate [recA1, recB2, recA3]).clusters "B").map (fun cl => cl.conns) =
       some 20 ∧
     nodeCountAt (aggregate [recA1, recB2, recA3]) "B" = 1) := by
  constructor
  · intro s r h1 h2 h3 h4
    refine ⟨?_, ?_, fun hc => ⟨?_, ?_⟩, fun hc => ?_⟩
    · simpa [onRecord] using wrap64_eq_self h1 h2
    · simpa [onRecord] using wrap64_eq_self h3 h4
    · simp only [nodeCountAt, onRecord, if_neg hc]
      rw [alLookup_updateCluster_self]
      cases h : alLookup s.clusters r.server.cluster <;> simp [clusterUpd, h]
    · intro k hk
      simp only [onRecord, if_neg hc]
      exact alLookup_updateCluster_other _ _ _ hk
    · simp [onRecord, hc]
  · exact ⟨by decide, by decide, by decide, by decide, by decide, by decide⟩

/-- Claim C4, witness: the step applied to the initial state and a concrete
record, with the no-wrap side conditions discharged by evaluation. -/
theorem claim_C4_witness :
    (onRecord initState recA1).servers = initState.servers + 1 ∧
    (onRecord initState recA1).connections =
      initState.connections + recA1.stats.connections := by
  have h := claim_C4.1 initState recA1 (by decide) (by decide) (by decide) (by decide)
  exact ⟨h.1, h.2.1⟩

/-- Claim C6: when zero replies were collected, the post-collection logic
fails with the no-results error naming authorization/permission causes; no
table and no JSON document is produced (the outcome is `Except.error`). -/
theorem claim_C6 (compactFn : List String → List String) (c : SrvLsCmd)
    (s : AggState) (h : s.results = []) :
    listRender compactFn c s = Except.error noResultsMsg := by
  unfold listRender
  rw [h]
  simp

/-- Claim C6, witness: the empty initial state produces the no-results
error. -/
theorem claim_C6_witness :
    listRender id (mkCmd "name" false false) initState = Except.error noResultsMsg :=
  claim_C6 id (mkCmd "name" false false) initState rfl

lemma foldl_processReply_fatal (replies : List (Option SrvResult)) :
    List.foldl processReply .fatalExit replies = .fatalExit := by
  induction replies with
  | nil => rfl
  | cons d t ih => simpa [processReply] using ih

lemma foldl_processReply_mem_none (replies : List (Option SrvResult)) :
    ∀ o : ReplyOutcome, none ∈ replies →
      List.foldl processReply o replies = .fatalExit := by
  induction replies with
  | nil =>
    intro o h
    simp at h
  | cons d t ih =>
    intro o h
    rcases List.mem_cons.mp h with hd | ht
    · subst hd
      cases o <;> simp [processReply, foldl_processReply_fatal]
    · exact ih _ ht

/-- Claim C7: if any reply in the stream fails to decode, the whole run ends
in the fatal-exit outcome — the malformed reply is never skipped and no
accumulated state (hence no report) survives. -/
theorem claim_C7 (replies : List (Option SrvResult)) (h : none ∈ replies) :
    runReplies replies = ReplyOutcome.fatalExit :=
  foldl_processReply_mem_none replies _ h

/-- Claim C7, witness: a single undecodable reply is fatal. -/
theorem claim_C7_witness : runReplies [none] = ReplyOutcome.fatalExit :=
  claim_C7 [none] (by simp)

/-- Claim C9, counterexample: in JSON mode the emitted document carries the
records in arrival order even though the ranking (here: sort key `mem`,
`reverse` unset) of the same records differs — a caller choosing ranked output
in JSON mode does not receive a ranked sequence. -/
theorem claim_C9_counterexample :
    listRender id (mkCmd "mem" false true) (aggregate [memA, memB]) =
      Except.ok (Output.jsonDoc [memA, memB]) ∧
    rank (mkCmd "mem" false true) [memA, memB] = [memB, memA] ∧
    ([memA, memB] : List SrvResult) ≠ [memB, memA] :=
  ⟨rfl, by decide, by decide⟩

/-- Claim C9, amended: in JSON mode the collected record sequence is emitted
as a structured document *in arrival order* — the JSON branch returns before
the sort runs, so ranking is never applied; aggregation is unchanged, only the
sink differs. -/
theorem claim_C9_amended (compactFn : List String → List String) (c : SrvLsCmd)
    (s : AggState) (hj : c.json = true) (hne : s.results ≠ []) :
    listRender compactFn c s = Except.ok (Output.jsonDoc s.results) := by
  unfold listRender
  rw [if_neg (by simpa using hne)]
  simp [hj]

/-- Claim C9, witness: the amended statement applied to a concrete two-record
state in JSON mode. -/
theorem claim_C9_witness :
    listRender id (mkCmd "mem" false true) (aggregate [memA, memB]) =
      Except.ok (Output.jsonDoc (aggregate [memA, memB]).results) :=
  claim_C9_amended id (mkCmd "mem" false true) (aggregate [memA, memB]) rfl (by decide)

/-- Claim C8, counterexample: the totals row does not leave the Host column
blank — for the three-record scenario state the cell under the Host header
(position 3) holds the server count 3, not the empty string the claim
asserts. -/
theorem claim_C8_counterexample :
    List.getD (totalsRow (aggregate [recA1, recB2, recA3])) 2 (Cell.str "") =
      Cell.int 3 ∧
    Cell.int 3 ≠ Cell.str "" :=
  ⟨by decide, by decide⟩

/-- Claim C8, amended: the per-server table ends with exactly one totals row,
holding the cluster count (Cluster column), the server count (under the Host
header), the JetStream-enabled count, the connection, subscription, memory and
slow-consumer totals, and leaving blank the name, version, route-count,
gateway-count, CPU, core-count, uptime and RTT columns. -/
theorem claim_C8_amended (ranked : List SrvResult) (cN cH : List String)
    (s : AggState) :
    (serverTableRows ranked cN cH s).getLast? = some (totalsRow s) ∧
    (serverTableRows ranked cN cH s).count (totalsRow s) = 1 ∧
    totalsRow s = [Cell.str "", Cell.int (s.clusters.length : Int), Cell.int s.servers,
      Cell.str "", Cell.int s.js, Cell.comma s.connections, Cell.comma (s.subs : Int),
      Cell.str "", Cell.str "", Cell.ibytes s.memory, Cell.str "", Cell.str "",
      Cell.comma s.slow, Cell.str "", Cell.str ""] := by
  refine ⟨?_, ?_, rfl⟩
  · unfold serverTableRows
    exact List.getLast?_concat _
  · unfold serverTableRows
    rw [List.count_append]
    have h0 : (List.map rowFor (ranked.zip (cN.zip cH))).count (totalsRow s) = 0 := by
      rw [List.count_eq_zero]
      intro hmem
      obtain ⟨p, _, hp⟩ := List.mem_map.mp hmem
      have h4 := congrArg (fun row => List.getD row 4 (Cell.str "")) hp
      simp [rowFor, totalsRow] at h4
    rw [h0]
    simp

lemma foldl_subs (l : List SrvResult) : ∀ s : AggState,
    (List.foldl onRecord s l).subs =
      if l.isEmpty then s.subs
      else (s.subs + (l.map (fun r => r.stats.numSubs)).sum) % 2 ^ 32 := by
  induction l with
  | nil =>
    intro s
    simp
  | cons x t ih =>
    intro s
    simp only [List.foldl_cons, ih (onRecord s x), List.isEmpty_cons, List.map_cons,
      List.sum_cons, Bool.false_eq_true, if_false]
    by_cases ht : t.isEmpty
    · rw [List.isEmpty_iff] at ht
      subst ht
      simp [onRecord]
    · simp only [ht, Bool.false_eq_true, if_false, onRecord]
      omega

lemma foldl_memory (l : List SrvResult) : ∀ s : AggState,
    (List.foldl onRecord s l).memory =
      if l.isEmpty then s.memory
      else wrap64 (s.memory + (l.map (fun r => r.stats.mem)).sum) := by
  induction l with
  | nil =>
    intro s
    simp
  | cons x t ih =>
    intro s
    simp only [List.foldl_cons, ih (onRecord s x), List.isEmpty_cons, List.map_cons,
      List.sum_cons, Bool.false_eq_true, if_false]
    by_cases ht : t.isEmpty
    · rw [List.isEmpty_iff] at ht
      subst ht
      simp [onRecord, add_assoc]
    · simp only [ht, Bool.false_eq_true, if_false, onRecord, wrap64_add_left]
      rw [add_assoc]

lemma foldl_slow (l : List SrvResult) : ∀ s : AggState,
    (List.foldl onRecord s l).slow =
      if l.isEmpty then s.slow
      else wrap64 (s.slow + (l.map (fun r => r.stats.slowConsumers)).sum) := by
  induction l with
  | nil =>
    intro s
    simp
  | cons x t ih =>
    intro s
    simp only [List.foldl_cons, ih (onRecord s x), List.isEmpty_cons, List.map_cons,
      List.sum_cons, Bool.false_eq_true, if_false]
    by_cases ht : t.isEmpty
    · rw [List.isEmpty_iff] at ht
      subst ht
      simp [onRecord, add_assoc]
    · simp only [ht, Bool.false_eq_true, if_false, onRecord, wrap64_add_left]
      rw [add_assoc]

/-- Claim C10: over any arrival sequence, the global subscription total is the
sum of the records' subscription counts reduced modulo `2 ^ 32` (a 32-bit
unsigned accumulator), while the memory and slow-consumer totals are the sums
wrapped at signed 64-bit width. -/
theorem claim_C10 (l : List SrvResult) :
    (aggregate l).subs = (l.map (fun r => r.stats.numSubs)).sum % 2 ^ 32 ∧
    (aggregate l).memory = wrap64 ((l.map (fun r => r.stats.mem)).sum) ∧
    (aggregate l).slow = wrap64 ((l.map (fun r => r.stats.slowConsumers)).sum) := by
  unfold aggregate
  refine ⟨?_, ?_, ?_⟩
  · rw [foldl_subs]
    cases l <;> simp [initState]
  · rw [foldl_memory]
    cases l with
    | nil =>
      simp only [List.isEmpty_nil, if_true, List.map_nil, List.sum_nil]
      unfold initState wrap64
      decide
    | cons x t => simp [initState]
  · rw [foldl_slow]
    cases l with
    | nil =>
      simp only [List.isEmpty_nil, if_true, List.map_nil, List.sum_nil]
      unfold initState wrap64
      decide
    | cons x t => simp [initState]

lemma cObs_clusterUpd (r : SrvResult) (cl : SrvListCluster) :
    cObs (clusterUpd r cl) = cluObsUpd r (cObs cl) := by
  simp only [cObs, clusterUpd, cluObsUpd, ClusterObs.mk.injEq, true_and,
    and_true, eq_self_iff_true]
  rw [← Multiset.coe_singleton r.server.name, ← Multiset.coe_add]

lemma cObs_init (k : String) :
    cObs ⟨k, [], 0, 0, 0⟩ = (⟨0, 0, 0, 0⟩ : ClusterObs) := by
  simp [cObs, Multiset.coe_nil]

lemma obs_onRecord (s : AggState) (r : SrvResult) :
    obs (onRecord s r) = obsStep (obs s) r := by
  unfold obs obsStep onRecord
  simp only [Obs.mk.injEq, true_and, and_true, eq_self_iff_true]
  by_cases hc : r.server.cluster = ""
  · simp [hc]
  · simp only [hc, if_neg, if_false]
    funext k
    by_cases hk : k = r.server.cluster
    · rw [hk, if_pos rfl, alLookup_updateCluster_self]
      cases h : alLookup s.clusters r.server.cluster <;>
        simp [h, cObs_clusterUpd, cObs_init]
    · rw [if_neg hk, alLookup_updateCluster_other _ _ _ hk]

lemma foldl_wrapAdd (l : List GatewayStat) (v : Int) :
    l.foldl (fun a g => wrap64 (a + g.numInbound)) v =
      if l.isEmpty then v
      else wrap64 (v + (l.map (fun g => g.numInbound)).sum) := by
  induction l generalizing v with
  | nil => simp
  | cons g t ih =>
    simp only [List.foldl_cons, ih, List.isEmpty_cons, List.map_cons, List.sum_cons,
      Bool.false_eq_true, if_false]
    by_cases ht : t.isEmpty
    · rw [List.isEmpty_iff] at ht
      subst ht
      simp [add_assoc]
    · simp only [ht, Bool.false_eq_true, if_false, wrap64_add_left]
      rw [add_assoc]

lemma cluObsUpd_comm (r1 r2 : SrvResult) (co : ClusterObs) :
    cluObsUpd r2 (cluObsUpd r1 co) = cluObsUpd r1 (cluObsUpd r2 co) := by
  unfold cluObsUpd
  refine ClusterObs.ext ?_ ?_ ?_ ?_
  · show wrap64 (wrap64 (co.conns + r1.stats.connections) + r2.stats.connections) =
      wrap64 (wrap64 (co.conns + r2.stats.connections) + r1.stats.connections)
    rw [wrap64_add_left, wrap64_add_left]
    ring_nf
  · show wrap64 (wrap64 (co.gwOut + (r1.stats.gateways.length : Int)) +
        (r2.stats.gateways.length : Int)) = wrap64 (wrap64 (co.gwOut +
        (r2.stats.gateways.length : Int)) + (r1.stats.gateways.length : Int))
    rw [wrap64_add_left, wrap64_add_left]
    ring_nf
  · show List.foldl _ (List.foldl _ co.gwIn r1.stats.gateways) r2.stats.gateways =
      List.foldl _ (List.foldl _ co.gwIn r2.stats.gateways) r1.stats.gateways
    rw [foldl_wrapAdd, foldl_wrapAdd, foldl_wrapAdd, foldl_wrapAdd]
    by_cases h1 : r1.stats.gateways.isEmpty <;> by_cases h2 : r2.stats.gateways.isEmpty <;>
      simp only [h1, h2, if_true, if_false, Bool.false_eq_true] <;>
      first
        | rfl
        | (rw [wrap64_add_left, wrap64_add_left]; ring_nf)
  · show co.nodes + {r1.server.name} + {r2.server.name} =
      co.nodes + {r2.server.name} + {r1.server.name}
    exact add_right_comm _ _ _

lemma obsStep_comm (o : Obs) (r1 r2 : SrvResult) :
    obsStep (obsStep o r1) r2 = obsStep (obsStep o r2) r1 := by
  unfold obsStep
  refine Obs.ext rfl ?_ ?_ ?_ ?_ ?_ ?_
  · show wrap64 (wrap64 (o.connections + r1.stats.connections) + r2.stats.connections) =
      wrap64 (wrap64 (o.connections + r2.stats.connections) + r1.stats.connections)
    rw [wrap64_add_left, wrap64_add_left]
    ring_nf
  · show wrap64 (wrap64 (o.memory + r1.stats.mem) + r2.stats.mem) =
      wrap64 (wrap64 (o.memory + r2.stats.mem) + r1.stats.mem)
    rw [wrap64_add_left, wrap64_add_left]
    ring_nf
  · show wrap64 (wrap64 (o.slow + r1.stats.slowConsumers) + r2.stats.slowConsumers) =
      wrap64 (wrap64 (o.slow + r2.stats.slowConsumers) + r1.stats.slowConsumers)
    rw [wrap64_add_left, wrap64_add_left]
    ring_nf
  · show ((o.subs + r1.stats.numSubs) % 2 ^ 32 + r2.stats.numSubs) % 2 ^ 32 =
      ((o.subs + r2.stats.numSubs) % 2 ^ 32 + r1.stats.numSubs) % 2 ^ 32
    omega
  · by_cases h1 : r1.server.jetStream <;> by_cases h2 : r2.server.jetStream <;>
      simp [h1, h2]
  · by_cases h1 : r1.server.cluster = ""
    · by_cases h2 : r2.server.cluster = "" <;> simp [h1, h2]
    · by_cases h2 : r2.server.cluster = ""
      · simp [h1, h2]
      · simp only [h1, h2, if_false]
        by_cases h12 : r1.server.cluster = r2.server.cluster
        · funext k
          rw [h12] at *
          by_cases hk : k = r2.server.cluster <;> simp [hk, cluObsUpd_comm]
        · have hne' : ¬ r2.server.cluster = r1.server.cluster := fun hh => h12 hh.symm
          funext k
          by_cases hk1 : k = r1.server.cluster <;> by_cases hk2 : k = r2.server.cluster
          · exact absurd (hk1 ▸ hk2) h12
          · simp [hk1, hk2, h12, hne']
          · simp [hk1, hk2, h12, hne']
          · simp [hk1, hk2]

lemma obs_foldl_congr (l : List SrvResult) : ∀ {s s' : AggState}, obs s = obs s' →
    obs (List.foldl onRecord s l) = obs (List.foldl onRecord s' l) := by
  induction l with
  | nil =>
    intro s s' h
    simpa using h
  | cons x t ih =>
    intro s s' h
    simp only [List.foldl_cons]
    exact ih (by rw [obs_onRecord, obs_onRecord, h])

lemma obs_foldl_perm {l l' : List SrvResult} (hp : l.Perm l') :
    ∀ s : AggState, obs (List.foldl onRecord s l) = obs (List.foldl onRecord s l') := by
  induction hp with
  | nil =>
    intro s
    rfl
  | cons x hp ih =>
    intro s
    simp only [List.foldl_cons]
    exact ih _
  | swap x y t =>
    intro s
    simp only [List.foldl_cons]
    refine obs_foldl_congr t ?_
    rw [obs_onRecord, obs_onRecord, obsStep_comm, ← obs_onRecord, ← obs_onRecord]
  | trans h1 h2 ih1 ih2 =>
    intro s
    exact (ih1 s).trans (ih2 s)

/-- Claim C5, counterexample: permuting two same-cluster records changes the
cluster rollup — the `nodes` list records arrival order — so feeding the same
records in a different sequential order does not yield *identical* per-cluster
rollups. -/
theorem claim_C5_counterexample :
    List.Perm [nodeX, nodeY] [nodeY, nodeX] ∧
    alLookup (aggregate [nodeX, nodeY]).clusters "A" ≠
      alLookup (aggregate [nodeY, nodeX]).clusters "A" :=
  ⟨by decide, by decide⟩

/-- Claim C5, amended: feeding the same records in any sequential order yields
identical global rollups (server count, connection, memory, slow-consumer and
subscription totals, JetStream count) and, per cluster, identical connection
and gateway sums and identical node *multisets*; only the per-cluster node
*sequences*, which record arrival order, differ (by the same permutation). -/
theorem claim_C5_amended (l l' : List SrvResult) (hp : l.Perm l') :
    obs (aggregate l) = obs (aggregate l') :=
  obs_foldl_perm hp initState

/-- Claim C5, witness: the amended statement applied to a concrete two-record
permutation. -/
theorem claim_C5_witness :
    obs (aggregate [nodeX, nodeY]) = obs (aggregate [nodeY, nodeX]) :=
  claim_C5_amended [nodeX, nodeY] [nodeY, nodeX] (by decide)
